import Mathlib

/-!
# Verification of the Helix agent-server session/streaming orchestration layer

Shallow embedding of `src/agent-server/main.py` (the chat orchestration,
session store, context builder, attachment handling, approval gate and
settings endpoints), with theorems settling the frozen claims about it.
-/

namespace Helix

/-! ## JSON values

The argument domain of tool-call payloads: the values Python `json.loads`
can produce, and the values stored in `tool_args`.  Python `None` (absent
dict key, JSON `null`) is represented by `JsonVal.null`. -/

/-- A JSON-compatible Python value, as produced by `json.loads`. -/
inductive JsonVal where
  | null
  | bool (b : Bool)
  | num (n : Int)
  | str (s : String)
  | arr (elems : List JsonVal)
  | obj (fields : List (String × JsonVal))

/-- Python truthiness of a JSON-compatible value (`if x:`). -/
def JsonVal.truthy : JsonVal → Bool
  | JsonVal.null => false
  | JsonVal.bool b => b
  | JsonVal.num n => n != 0
  | JsonVal.str s => !s.isEmpty
  | JsonVal.arr l => !l.isEmpty
  | JsonVal.obj l => !l.isEmpty

/-- Python `dict.get(k)` on an object's field list: the value of the first
binding of `k`, or `None` when the key is absent. -/
def dictGet (fields : List (String × JsonVal)) (k : String) : JsonVal :=
  match fields.find? (fun p => p.1 == k) with
  | some p => p.2
  | none => JsonVal.null

/-- Python `a or b`: `a` when truthy, else `b`. -/
def pyOr (a b : JsonVal) : JsonVal :=
  if a.truthy then a else b

/-! ## Attachment handling (main.py lines 406–478)

The selected-file branch of `handle_chat`: image files are attached only
when present, regular, and strictly under 5 MB; other files are inlined as
text only when strictly under 100 KB.  Every failure degrades to a note;
the handlers are total functions, so no exception escapes. -/

/-- Recognized image extensions (main.py line 406). -/
def imageExtensions : List String :=
  [".png", ".jpg", ".jpeg", ".gif", ".webp", ".bmp"]

/-- The image size ceiling in bytes (main.py line 417: `5 * 1024 * 1024`). -/
def IMAGE_SIZE_LIMIT : Nat := 5 * 1024 * 1024

/-- The text-file size ceiling in bytes (main.py line 468: `100 * 1024`). -/
def TEXT_SIZE_LIMIT : Nat := 100 * 1024

/-- Outcome of the image-attachment branch (main.py lines 411–460). -/
inductive ImageOutcome where
  /-- bytes read and base64-encoded into a data URL; an image part is attached -/
  | attached (size : Nat)
  /-- degraded note: file exceeds the 5 MB ceiling, not attached -/
  | oversize (size : Nat)
  /-- degraded note: reading raised, not attached -/
  | readError
  /-- file missing or not a regular file: no note, no attachment -/
  | skipped
deriving DecidableEq

/-- The image-attachment branch (main.py lines 411–460): `present`/`isFile`
abstract `path_obj.exists()`/`path_obj.is_file()`, `size` is `stat().st_size`,
`readOk` is whether opening and reading the bytes succeeds (a failure is the
caught exception of line 452). -/
def handleImageAttachment (present isFile : Bool) (size : Nat) (readOk : Bool) :
    ImageOutcome :=
  if present && isFile then
    if size < IMAGE_SIZE_LIMIT then
      if readOk then ImageOutcome.attached size else ImageOutcome.readError
    else ImageOutcome.oversize size
  else ImageOutcome.skipped

/-- Degraded note used by the text branch for an oversize file (main.py line 476). -/
def oversizeTextNote : String := "[文件过大，已跳过内容读取]"

/-- The non-image attachment branch (main.py lines 462–478): the `file_content`
string spliced into the prompt.  `readResult` is the outcome of the
`open`/`read` call of lines 470–474 (errors are caught and degraded). -/
def handleTextAttachment (present isFile : Bool) (size : Nat)
    (readResult : Except String String) : String :=
  if present && isFile then
    if size < TEXT_SIZE_LIMIT then
      match readResult with
      | Except.ok s => s
      | Except.error e => "[无法读取文件内容: " ++ e ++ "]"
    else oversizeTextNote
  else ""

/-! ## Session data model and persistence (main.py lines 91–171) -/

/-- One persisted tool-invocation summary (`{"tool": ..., "args": ...}`,
main.py line 669). -/
structure ToolInvocation where
  tool : JsonVal
  args : JsonVal

/-- One persisted message of a session (`add_message`, main.py lines 159–168). -/
structure TurnRec where
  role : String
  content : String
  timestamp : String
  tools_used : List ToolInvocation

/-- The in-memory session object (`CoworkSession`, main.py lines 91–104). -/
structure CoworkSession where
  session_id : String
  work_dir : String
  created_at : String
  messages : List TurnRec

/-- The on-disk record shape written by `save_session` and read back by
`load_sessions`.  The `messages` key is optional because `load_sessions`
reads it with `data.get("messages", [])` (main.py line 126); the JSON
serialization itself (`json.dump`/`json.load`) is assumed faithful. -/
structure SessionRecord where
  session_id : String
  work_dir : String
  created_at : String
  messages : Option (List TurnRec)

/-- `CoworkSession.to_dict` (main.py lines 98–104), the record persisted by
`save_session` (lines 132–136). -/
def CoworkSession.toDict (s : CoworkSession) : SessionRecord :=
  { session_id := s.session_id
  , work_dir := s.work_dir
  , created_at := s.created_at
  , messages := some s.messages }

/-- The per-record body of `load_sessions` (main.py lines 120–128):
rebuilds a `CoworkSession` from a parsed record, defaulting `messages`
to the empty list. -/
def loadSessionRecord (d : SessionRecord) : CoworkSession :=
  { session_id := d.session_id
  , work_dir := d.work_dir
  , created_at := d.created_at
  , messages := (d.messages).getD [] }

/-! ## Session deletion (main.py lines 266–275)

The store state is the in-memory `sessions` dict (an association list with
unique keys) together with the set of session ids that have a backing
record file on disk. -/

/-- The session-store state visible to `delete_session`. -/
structure StoreState where
  sessions : List (String × CoworkSession)
  files : List String

/-- Result reported by the delete endpoint. -/
inductive DeleteResult where
  | deleted
  | notFoundResult
deriving DecidableEq

/-- `delete_session` (main.py lines 266–275): when the id is a key of the
in-memory dict, remove it, unlink the backing record if it exists, and
report `deleted`; otherwise report a structured not-found result and leave
the state untouched. -/
def deleteSession (id : String) (st : StoreState) : DeleteResult × StoreState :=
  if st.sessions.any (fun p => p.1 == id) then
    let sessions' := st.sessions.filter (fun p => p.1 != id)
    let files' := if st.files.contains id then st.files.filter (fun f => f != id) else st.files
    (DeleteResult.deleted, { sessions := sessions', files := files' })
  else
    (DeleteResult.notFoundResult, st)

/-! ## Settings endpoints (main.py lines 64–68, 199–217) -/

/-- The process default model (main.py line 49). -/
def DEFAULT_MODEL : String := "kimi-k2-thinking-turbo"

/-- The `user_settings` global (main.py lines 65–68): both entries start as
`None` and are overridden by the settings endpoints. -/
structure UserSettings where
  model : Option String
  api_key : Option String

/-- Python truthiness of an optional string field. -/
def pyTruthyStr : Option String → Bool
  | none => false
  | some s => !s.isEmpty

/-- The body of the settings-update endpoint (main.py lines 199–209): each
field is stored only when the request carries a truthy value for it. -/
def updateSettings (req : UserSettings) (s : UserSettings) : UserSettings :=
  let s1 := if pyTruthyStr req.model then { s with model := req.model } else s
  if pyTruthyStr req.api_key then { s1 with api_key := req.api_key } else s1

/-- The response shape of the settings-read endpoint. -/
structure SettingsResponse where
  model : String
  api_key : Option String
deriving DecidableEq

/-- The settings-read endpoint (main.py lines 211–217): the model falls back
to the default when unset (Python `or`), and the api key is reported as the
literal mask when truthy and as `null` otherwise. -/
def getSettingsResp (s : UserSettings) : SettingsResponse :=
  { model := match s.model with
             | some m => if m.isEmpty then DEFAULT_MODEL else m
             | none => DEFAULT_MODEL
  , api_key := match s.api_key with
               | some k => if k.isEmpty then none else some "***"
               | none => none }

/-! ## Context window builder (main.py lines 372–385)

The history context of one chat turn: the last user message (just appended)
is excluded, the ten most recent remaining messages are rendered — user
messages verbatim behind a `用户: ` label, assistant messages truncated to
500 characters behind an `AI: ` label — and joined by newlines. -/

/-- Python string slicing `s[:n]`: the first `n` code points of `s`. -/
def takeChars (s : String) (n : Nat) : String :=
  ⟨s.data.take n⟩

/-- Assistant-content truncation (main.py lines 379–382): keep the first
500 characters and append an ellipsis when the source is longer. -/
def truncateAssistant (content : String) : String :=
  let c := takeChars content 500
  if content.length > 500 then c ++ "..." else c

/-- The per-message rendering of the context loop body (main.py lines
376–383): user and assistant messages produce a line, other roles none. -/
def renderTurn (m : TurnRec) : Option String :=
  if m.role == "user" then some ("用户: " ++ m.content)
  else if m.role == "assistant" then some ("AI: " ++ truncateAssistant m.content)
  else none

/-- The slice `session.messages[:-1][-10:]` of main.py line 375: drop the
just-appended user message, keep the last ten. -/
def contextSlice (messages : List TurnRec) : List TurnRec :=
  (messages.dropLast).drop (messages.dropLast.length - 10)

/-- The `context_messages` list built by the loop of main.py lines 373–383. -/
def contextMessages (messages : List TurnRec) : List String :=
  (contextSlice messages).filterMap renderTurn

/-- `context_str` (main.py line 385): the rendered lines joined by
newlines, empty when there are none. -/
def buildContextStr (messages : List TurnRec) : String :=
  let cm := contextMessages messages
  if cm.isEmpty then "" else String.intercalate "\n" cm

/-- The rendering the amended context claim speaks about: `用户: <content>`
for a user turn, `AI: ` plus the 500-character truncation for an assistant
turn.  Stated from the claim's words, to be compared with `renderTurn`. -/
def renderSpec (m : TurnRec) : String :=
  if m.role == "user" then "用户: " ++ m.content
  else "AI: " ++ truncateAssistant m.content

/-! ## The runtime event stream and the client wire protocol
(main.py lines 345–723) -/

/-- The dict-shaped `function` payload of a runtime `ToolCall` message.
`none` in a field means the key is absent (so `dict.get` falls back to its
default); a present field holds an arbitrary JSON value, possibly `null`.
The source probes both dict-shaped and pydantic-shaped payloads (main.py
lines 635–656); for a payload convertible to a dict both branches end in
the same `get("name", "unknown")` / `get("arguments", "\x7b\x7d")` lookups,
which is what is embedded here. -/
structure ToolFuncDict where
  name : Option JsonVal
  arguments : Option JsonVal

/-- One message of the runtime's event stream, as classified by the
`isinstance` chain of main.py lines 610–704.  `other` covers stream
messages of any further shape, which the loop ignores. -/
inductive RuntimeEvent where
  | textPart (text : String)
  | toolCall (function : Option ToolFuncDict)
  | approvalRequest
  | other

/-- One client-facing JSON event, tagged by its `type` field (spec §6). -/
inductive ClientEvent where
  | sessionCreated (session_id : String)
  | thinking (message : String)
  | streamChunk (content : String) (session_id : String)
  | toolCallEvt (tool : JsonVal) (args : JsonVal) (session_id : String)
  | fileModified (file_path : JsonVal) (tool : JsonVal) (session_id : String)
  | approvalRequestEvt (message : String)
  | toolApproved (auto : Bool)
  | complete (content : String) (session_id : String) (tools_used : List ToolInvocation)
  | errorEvt (error : String)

/-- Whether an event terminates a turn (`complete` or `error`). -/
def ClientEvent.isTerminal : ClientEvent → Bool
  | ClientEvent.complete _ _ _ => true
  | ClientEvent.errorEvt _ => true
  | _ => false

/-- The turn-scoped configuration of one `handle_chat` call: the persisted
session id, the `auto_accept` flag, and the behaviour of `json.loads` on
argument strings (`none` models a raised `JSONDecodeError`). -/
structure TurnConfig where
  session_id : String
  auto_accept : Bool
  parse : String → Option JsonVal

/-- The mutable per-turn accumulation state (`full_response` and
`tools_used`, main.py lines 557–558). -/
structure TurnState where
  full_response : String
  tools_used : List ToolInvocation

/-- Tool-name extraction (main.py lines 632–653): a missing `function`
payload or a missing `name` key degrades to the string `unknown`; a present
`name` value is used as-is. -/
def extractToolName (f : Option ToolFuncDict) : JsonVal :=
  match f with
  | none => JsonVal.str "unknown"
  | some fd =>
    match fd.name with
    | some v => v
    | none => JsonVal.str "unknown"

/-- Tool-argument extraction (main.py lines 639–665): the `arguments` key
defaults to the string `"\x7b\x7d"`; a string value is parsed with
`json.loads`, a parse failure degrades to the raw-string fallback object,
and a non-string value is used directly. -/
def extractToolArgs (parse : String → Option JsonVal) (f : Option ToolFuncDict) : JsonVal :=
  match f with
  | none => JsonVal.obj []
  | some fd =>
    match fd.arguments with
    | some (JsonVal.str s) =>
      (match parse s with
       | some v => v
       | none => JsonVal.obj [("raw", JsonVal.str s)])
    | some v => v
    | none =>
      (match parse "\x7b\x7d" with
       | some v => v
       | none => JsonVal.obj [("raw", JsonVal.str "\x7b\x7d")])

/-- The file-modifying tool set (main.py line 678). -/
def fileModifyingTools : List String :=
  ["write_file", "edit_file", "str_replace", "str_replace_editor"]

/-- `tool_name in file_modifying_tools` (main.py line 679): only a string
tool name can match. -/
def isFileModifying : JsonVal → Bool
  | JsonVal.str s => fileModifyingTools.contains s
  | _ => false

/-- Message of the exception raised by `tool_args.get(...)` when `tool_args`
is not a dict (main.py line 681). -/
def attributeErrorMsg : String := "AttributeError: tool args object has no attribute get"

/-- The path extraction of main.py line 681
(`tool_args.get("path") or tool_args.get("file_path") or tool_args.get("file")`):
only a dict supports `.get`, any other value raises `AttributeError`.  The
result is the first truthy candidate, `none` when all are falsy. -/
def extractFilePathStep (args : JsonVal) : Except String (Option JsonVal) :=
  match args with
  | JsonVal.obj fields =>
    let fp := pyOr (dictGet fields "path") (pyOr (dictGet fields "file_path") (dictGet fields "file"))
    Except.ok (if fp.truthy then some fp else none)
  | _ => Except.error attributeErrorMsg

/-- The full tool-call branch of the stream loop (main.py lines 623–688):
the extracted invocation, the client events it emits in order, and the
message of the exception that aborts the turn, if one is raised. -/
def toolCallOut (parse : String → Option JsonVal) (sid : String)
    (f : Option ToolFuncDict) : ToolInvocation × List ClientEvent × Option String :=
  let tn := extractToolName f
  let ta := extractToolArgs parse f
  let base := [ClientEvent.toolCallEvt tn ta sid]
  if isFileModifying tn then
    match extractFilePathStep ta with
    | Except.ok (some fp) => (⟨tn, ta⟩, base ++ [ClientEvent.fileModified fp tn sid], none)
    | Except.ok none => (⟨tn, ta⟩, base, none)
    | Except.error e => (⟨tn, ta⟩, base, some e)
  else (⟨tn, ta⟩, base, none)

/-- The text-fragment branch (main.py lines 611–621): a non-empty fragment
is forwarded as one `stream` event carrying that fragment; an empty one is
dropped. -/
def textPartOut (sid : String) (text : String) : List ClientEvent :=
  if text.isEmpty then [] else [ClientEvent.streamChunk text sid]

/-- Resolution passed to `ApprovalRequest.resolve` (main.py lines 692, 704). -/
inductive Resolution where
  | approve
  | deny
deriving DecidableEq

/-- The approval branch (main.py lines 690–704): with `auto_accept` the
request resolves to approve and a `tool_approved{auto:true}` event is
emitted; otherwise an `approval_request` event is emitted and the request
is then resolved to approve without waiting for client input. -/
def approvalOut (autoAccept : Bool) : List ClientEvent × Resolution :=
  if autoAccept then
    ([ClientEvent.toolApproved true], Resolution.approve)
  else
    ([ClientEvent.approvalRequestEvt "需要您的批准才能继续"], Resolution.approve)

/-- The client events one runtime event emits, together with the message of
the exception it raises, if any.  The emitted events depend only on the
event and configuration, never on the accumulated state. -/
def eventOut (cfg : TurnConfig) : RuntimeEvent → List ClientEvent × Option String
  | RuntimeEvent.textPart t => (textPartOut cfg.session_id t, none)
  | RuntimeEvent.toolCall f =>
    ((toolCallOut cfg.parse cfg.session_id f).2.1, (toolCallOut cfg.parse cfg.session_id f).2.2)
  | RuntimeEvent.approvalRequest => ((approvalOut cfg.auto_accept).1, none)
  | RuntimeEvent.other => ([], none)

/-- The state update one runtime event performs before any exception it may
raise: a non-empty text fragment extends `full_response` (main.py line 616),
a tool call appends its invocation to `tools_used` (main.py line 669). -/
def eventDelta (cfg : TurnConfig) (st : TurnState) : RuntimeEvent → TurnState
  | RuntimeEvent.textPart t =>
    if t.isEmpty then st else { st with full_response := st.full_response ++ t }
  | RuntimeEvent.toolCall f =>
    { st with tools_used := st.tools_used ++ [⟨extractToolName f, extractToolArgs cfg.parse f⟩] }
  | _ => st

/-- The stream-consumption loop (main.py lines 610–704): processes runtime
events in order until the list is exhausted or an event raises, returning
the final accumulation state, the client events emitted, and the raised
message, if any. -/
def runEvents (cfg : TurnConfig) (st : TurnState) :
    List RuntimeEvent → TurnState × List ClientEvent × Option String
  | [] => (st, [], none)
  | e :: es =>
    match (eventOut cfg e).2 with
    | some msg => (eventDelta cfg st e, (eventOut cfg e).1, some msg)
    | none =>
      let r := runEvents cfg (eventDelta cfg st e) es
      (r.1, (eventOut cfg e).1 ++ r.2.1, r.2.2)

/-- The events emitted before the stream is consumed: `session_created`
when the turn created its session (main.py lines 364–367), then the
`thinking` event (main.py lines 560–563). -/
def initEvents (cfg : TurnConfig) (sessionNew : Bool) : List ClientEvent :=
  (if sessionNew then [ClientEvent.sessionCreated cfg.session_id] else [])
    ++ [ClientEvent.thinking "正在思考..."]

/-- One `handle_chat` run over a given runtime stream (main.py lines
357–723).  `events` are the runtime messages produced before the stream
either ends or raises `streamFail`.  The result is the ordered list of
client events emitted and the assistant turn persisted by
`add_message` on the success path (main.py line 707), `none` when the turn
aborted with an `error` event (main.py lines 716–723). -/
def handleChat (cfg : TurnConfig) (sessionNew : Bool) (events : List RuntimeEvent)
    (streamFail : Option String) :
    List ClientEvent × Option (String × List ToolInvocation) :=
  match runEvents cfg ⟨"", []⟩ events with
  | (_st, evs, some msg) =>
    (initEvents cfg sessionNew ++ evs ++ [ClientEvent.errorEvt msg], none)
  | (st, evs, none) =>
    match streamFail with
    | some msg => (initEvents cfg sessionNew ++ evs ++ [ClientEvent.errorEvt msg], none)
    | none =>
      (initEvents cfg sessionNew
         ++ evs ++ [ClientEvent.complete st.full_response cfg.session_id st.tools_used],
       some (st.full_response, st.tools_used))

/-- The `content` fields of the `stream` events of an event list, in order. -/
def streamContents (evs : List ClientEvent) : List String :=
  evs.filterMap (fun e => match e with
    | ClientEvent.streamChunk c _ => some c
    | _ => none)

/-- The payloads of the `complete` events of an event list, in order. -/
def completePayloads (evs : List ClientEvent) :
    List (String × String × List ToolInvocation) :=
  evs.filterMap (fun e => match e with
    | ClientEvent.complete c sid tu => some (c, sid, tu)
    | _ => none)

/-- Concatenation of a list of strings, in order. -/
def concatAll (l : List String) : String :=
  l.foldr (fun a b => a ++ b) ""

/-- Behaviour of Python `json.loads` on the concrete argument strings used
in the concrete runs below: `"[1]"` parses to the one-element list `[1]`,
`"\x7b\x7d"` to the empty object, and the remaining strings appearing in
the examples are not valid JSON. -/
def jsonLoadsEx : String → Option JsonVal := fun s =>
  if s = "[1]" then some (JsonVal.arr [JsonVal.num 1])
  else if s = "\x7b\x7d" then some (JsonVal.obj [])
  else none

/-! ## Helper lemmas -/

theorem concatAll_nil : concatAll [] = "" := rfl

theorem concatAll_cons (s : String) (l : List String) :
    concatAll (s :: l) = s ++ concatAll l := rfl

theorem concatAll_append (a b : List String) :
    concatAll (a ++ b) = concatAll a ++ concatAll b := by
  induction a with
  | nil => simp [concatAll_nil]
  | cons x xs ih => simp [concatAll_cons, ih, String.append_assoc]

theorem lookup_filter_self (id : String) (l : List (String × CoworkSession)) :
    (l.filter (fun p => p.1 != id)).lookup id = none := by
  induction l with
  | nil => rfl
  | cons p t ih =>
    by_cases h : p.1 = id
    · simp [List.filter, h, ih]
    · have hb : (p.1 != id) = true := bne_iff_ne.mpr h
      have hk : (id == p.1) = false := by
        cases hq : id == p.1
        · rfl
        · exact absurd (beq_iff_eq.mp hq).symm h
      simp [List.filter, hb, List.lookup, hk, ih]

theorem lookup_filter_other (id other : String) (hne : other ≠ id)
    (l : List (String × CoworkSession)) :
    (l.filter (fun p => p.1 != id)).lookup other = l.lookup other := by
  induction l with
  | nil => rfl
  | cons p t ih =>
    by_cases h : p.1 = id
    · have hk : (other == id) = false := by
        cases hq : other == id
        · rfl
        · exact absurd (beq_iff_eq.mp hq) hne
      simp [List.filter, h, List.lookup, hk, ih]
    · have hb : (p.1 != id) = true := bne_iff_ne.mpr h
      by_cases ho : other = p.1
      · simp [List.filter, hb, List.lookup, ho]
      · have hk : (other == p.1) = false := by
          cases hq : other == p.1
          · rfl
          · exact absurd (beq_iff_eq.mp hq) ho
        simp [List.filter, hb, List.lookup, hk, ih]

theorem any_of_lookup_isSome (id : String) (l : List (String × CoworkSession))
    (h : (l.lookup id).isSome = true) :
    (l.any (fun p => p.1 == id)) = true := by
  induction l with
  | nil => simp [List.lookup] at h
  | cons p t ih =>
    by_cases hq : id = p.1
    · simp [List.any_cons, beq_iff_eq, hq]
    · have hk : (id == p.1) = false := by
        cases hb : id == p.1
        · rfl
        · exact absurd (beq_iff_eq.mp hb) hq
      rw [List.lookup, hk] at h
      simp [List.any_cons, ih h]

theorem any_filter_self (id : String) (l : List (String × CoworkSession)) :
    ((l.filter (fun p => p.1 != id)).any (fun p => p.1 == id)) = false := by
  cases ha : (l.filter (fun p => p.1 != id)).any (fun p => p.1 == id)
  · rfl
  · obtain ⟨x, hx, hbeq⟩ := List.any_eq_true.mp ha
    have hmem := List.mem_filter.mp hx
    exact absurd (beq_iff_eq.mp hbeq) (bne_iff_ne.mp hmem.2)

theorem contains_filter_self (id : String) (l : List String) :
    ((l.filter (fun f => f != id)).contains id) = false := by
  cases hc : (l.filter (fun f => f != id)).contains id
  · rfl
  · have hmem := List.mem_filter.mp (List.elem_iff.mp hc)
    exact absurd rfl (bne_iff_ne.mp hmem.2)

/-! ## C4 — attachment size boundary -/

/-- Claim C4 as stated is false on the code: the size checks are strict
(`<` at main.py lines 417 and 468), so a file of exactly the applicable
ceiling is rejected.  At the concrete input "image file present, regular,
exactly 5 MB, readable", the handler degrades to the oversize note instead
of attaching, and likewise a text file of exactly 100 KB degrades to the
oversize placeholder. -/
theorem attachment_exact_ceiling_counterexample :
    handleImageAttachment true true (5 * 1024 * 1024) true
        = ImageOutcome.oversize (5 * 1024 * 1024) ∧
    ImageOutcome.oversize (5 * 1024 * 1024) ≠ ImageOutcome.attached (5 * 1024 * 1024) ∧
    handleTextAttachment true true (100 * 1024) (Except.ok "body") = oversizeTextNote := by
  refine ⟨by decide, by decide, by decide⟩

/-- C4 (amended): for an existing regular attachment file, a size strictly
under the applicable ceiling (5 MB for recognized image extensions, 100 KB
for other files) is accepted, while a size equal to or above the ceiling is
rejected with a degraded explanatory note; both handlers are total
functions of the file state, so no exception aborts the turn. -/
theorem attachment_size_boundary_amended (size : Nat) :
    (size < IMAGE_SIZE_LIMIT →
        handleImageAttachment true true size true = ImageOutcome.attached size) ∧
    (IMAGE_SIZE_LIMIT ≤ size →
        handleImageAttachment true true size true = ImageOutcome.oversize size) ∧
    (size < TEXT_SIZE_LIMIT →
        ∀ c, handleTextAttachment true true size (Except.ok c) = c) ∧
    (TEXT_SIZE_LIMIT ≤ size →
        ∀ r, handleTextAttachment true true size r = oversizeTextNote) := by
  refine ⟨?_, ?_, ?_, ?_⟩
  · intro h
    simp [handleImageAttachment, h]
  · intro h
    simp [handleImageAttachment, Nat.not_lt.mpr h]
  · intro h c
    simp [handleTextAttachment, h]
  · intro h r
    simp [handleTextAttachment, Nat.not_lt.mpr h]

/-- Witness for C4 (amended): a 1-byte image is attached, a 5 MB image is
rejected with the oversize note. -/
theorem attachment_size_boundary_amended_witness :
    handleImageAttachment true true 1 true = ImageOutcome.attached 1 ∧
    handleImageAttachment true true (5 * 1024 * 1024) true
        = ImageOutcome.oversize (5 * 1024 * 1024) :=
  ⟨(attachment_size_boundary_amended 1).1 (by decide),
   (attachment_size_boundary_amended (5 * 1024 * 1024)).2.1 (by decide)⟩

/-! ## C7 — idempotent session deletion -/

/-- C7: deleting a session is idempotent.  The first delete of an existing
session reports `deleted` and removes both the in-memory entry and the
backing record; deleting the same id again (and deleting it in any state
where it is unknown) reports the structured not-found result and leaves the
whole state untouched; no other session's entry is affected. -/
theorem delete_session_idempotent (id : String) (st : StoreState)
    (h : ((st.sessions.lookup id).isSome) = true) :
    (deleteSession id st).1 = DeleteResult.deleted ∧
    ((deleteSession id st).2.sessions.lookup id) = none ∧
    ((deleteSession id st).2.files.contains id) = false ∧
    deleteSession id (deleteSession id st).2
        = (DeleteResult.notFoundResult, (deleteSession id st).2) ∧
    (∀ other, other ≠ id →
        ((deleteSession id st).2.sessions.lookup other) = st.sessions.lookup other) ∧
    (∀ st' : StoreState, (st'.sessions.any (fun p => p.1 == id)) = false →
        deleteSession id st' = (DeleteResult.notFoundResult, st')) := by
  have hany := any_of_lookup_isSome id st.sessions h
  have hfst : deleteSession id st =
      (DeleteResult.deleted,
        { sessions := st.sessions.filter (fun p => p.1 != id)
        , files := if st.files.contains id then st.files.filter (fun f => f != id)
                   else st.files }) := by
    simp [deleteSession, hany]
  refine ⟨by rw [hfst], ?_, ?_, ?_, ?_, ?_⟩
  · rw [hfst]
    exact lookup_filter_self id st.sessions
  · rw [hfst]
    by_cases hc : st.files.contains id = true
    · simp only [hc, if_true]
      exact contains_filter_self id st.files
    · simp only [Bool.not_eq_true] at hc
      simp only [hc, if_false]
      exact hc
  · rw [hfst]
    simp [deleteSession, any_filter_self]
  · intro other hne
    rw [hfst]
    exact lookup_filter_other id other hne st.sessions
  · intro st' hnone
    simp [deleteSession, hnone]

/-- Witness for C7 at a concrete two-session store. -/
theorem delete_session_idempotent_witness :
    (deleteSession "a" ⟨[("a", ⟨"a", "/w", "t", []⟩), ("b", ⟨"b", "/w", "t", []⟩)], ["a", "b"]⟩).1
        = DeleteResult.deleted ∧
    ((deleteSession "a" ⟨[("a", ⟨"a", "/w", "t", []⟩), ("b", ⟨"b", "/w", "t", []⟩)], ["a", "b"]⟩).2.sessions.lookup "b")
        = [("a", (⟨"a", "/w", "t", []⟩ : CoworkSession)), ("b", ⟨"b", "/w", "t", []⟩)].lookup "b" :=
  ⟨(delete_session_idempotent "a" ⟨[("a", ⟨"a", "/w", "t", []⟩), ("b", ⟨"b", "/w", "t", []⟩)], ["a", "b"]⟩ rfl).1,
   (delete_session_idempotent "a" ⟨[("a", ⟨"a", "/w", "t", []⟩), ("b", ⟨"b", "/w", "t", []⟩)], ["a", "b"]⟩ rfl).2.2.2.2.1
     "b" (by decide)⟩

/-! ## C8 — session persistence round trip -/

/-- C8: persisting a session via `save_session` (which writes
`CoworkSession.to_dict`) and reloading the record through the startup load
path yields a session equal in all fields — `session_id`, `work_dir`,
`created_at`, `messages` — to the one persisted. -/
theorem session_record_round_trip (s : CoworkSession) :
    loadSessionRecord (CoworkSession.toDict s) = s := by
  cases s
  rfl

/-! ## C10 — api key masking -/

/-- C10: the settings-read endpoint never reveals the stored api key.  Two
settings states that agree on the model and both store a (truthy) api key
produce identical responses; the response's api-key field is the literal
mask `***` whenever a truthy key is stored and `null` otherwise; the
response never carries the stored key itself; and the settings-update
endpoint only ever stores truthy (non-empty) keys, so every reachable
stored key is non-empty. -/
theorem settings_api_key_masked (s : UserSettings) (k1 k2 : String)
    (h1 : k1 ≠ "") (h2 : k2 ≠ "") :
    getSettingsResp { s with api_key := some k1 }
        = getSettingsResp { s with api_key := some k2 } ∧
    (getSettingsResp { s with api_key := some k1 }).api_key = some "***" ∧
    (∀ t : UserSettings, t.api_key = none → (getSettingsResp t).api_key = none) ∧
    (∀ (t : UserSettings) (k : String), t.api_key = some k → k ≠ "***" →
        (getSettingsResp t).api_key ≠ some k) ∧
    (∀ req t k, (updateSettings req t).api_key = some k →
        t.api_key = some k ∨ (req.api_key = some k ∧ k ≠ "")) := by
  have he1 : k1.isEmpty = false := by
    cases hb : k1.isEmpty
    · rfl
    · exact absurd ((String.isEmpty_iff k1).mp hb) h1
  have he2 : k2.isEmpty = false := by
    cases hb : k2.isEmpty
    · rfl
    · exact absurd ((String.isEmpty_iff k2).mp hb) h2
  refine ⟨?_, ?_, ?_, ?_, ?_⟩
  · simp [getSettingsResp, he1, he2]
  · simp [getSettingsResp, he1]
  · intro t ht
    simp [getSettingsResp, ht]
  · intro t k ht hk
    cases hke : k.isEmpty
    · simp only [getSettingsResp, ht, hke]
      intro hcontra
      exact hk (Option.some_injective _ hcontra).symm
    · simp only [getSettingsResp, ht, hke]
      intro hcontra
      exact absurd hcontra (by simp)
  · intro req t k hstore
    unfold updateSettings at hstore
    cases hra : pyTruthyStr req.api_key
    · rw [hra] at hstore
      simp only [if_false, Bool.false_eq_true] at hstore
      cases hrm : pyTruthyStr req.model
      · rw [hrm] at hstore
        simp only [if_false, Bool.false_eq_true] at hstore
        exact Or.inl hstore
      · rw [hrm] at hstore
        simp only [if_true] at hstore
        exact Or.inl hstore
    · rw [hra] at hstore
      simp only [if_true] at hstore
      refine Or.inr ⟨hstore, ?_⟩
      intro hk
      rw [hstore, hk] at hra
      simp [pyTruthyStr, String.isEmpty] at hra

/-- Witness for C10 at two concrete keys. -/
theorem settings_api_key_masked_witness :
    getSettingsResp ⟨none, some "sk-first"⟩ = getSettingsResp ⟨none, some "sk-second"⟩ ∧
    (getSettingsResp ⟨none, some "sk-first"⟩).api_key = some "***" :=
  ⟨(settings_api_key_masked ⟨none, none⟩ "sk-first" "sk-second" (by decide) (by decide)).1,
   (settings_api_key_masked ⟨none, none⟩ "sk-first" "sk-second" (by decide) (by decide)).2.1⟩

/-! ## C3 — context window construction -/

theorem renderTurn_eq_renderSpec (m : TurnRec)
    (h : m.role = "user" ∨ m.role = "assistant") :
    renderTurn m = some (renderSpec m) := by
  rcases h with h | h
  · simp [renderTurn, renderSpec, h]
  · simp [renderTurn, renderSpec, h]

theorem filterMap_renderTurn_eq_map (l : List TurnRec)
    (h : ∀ m ∈ l, m.role = "user" ∨ m.role = "assistant") :
    l.filterMap renderTurn = l.map renderSpec := by
  induction l with
  | nil => rfl
  | cons x xs ih =>
    rw [List.filterMap_cons, renderTurn_eq_renderSpec x (h x (List.mem_cons_self x xs)),
        List.map_cons, ih (fun m hm => h m (List.mem_cons_of_mem x hm))]

/-- Claim C3 as stated is false on the code: a prior user turn is rendered
behind the label `用户: ` (main.py line 377), not `user: `.  Concretely,
with one prior user turn of content `hi` (followed by the just-submitted
user turn), the built context text is `用户: hi`, which differs from the
`user: hi` the claim prescribes. -/
theorem context_render_label_counterexample :
    buildContextStr [⟨"user", "hi", "t1", []⟩, ⟨"user", "now", "t2", []⟩] = "用户: hi" ∧
    ("用户: hi" : String) ≠ "user: hi" := by
  refine ⟨rfl, by decide⟩

/-- C3 (amended): for a session whose prior turns (excluding the
just-submitted user turn) all have role `user` or `assistant`, the built
context text is exactly the `min(k, 10)` most recent prior turns, oldest of
those first, joined by newlines, where each user turn is rendered as
`用户: <content>` and each assistant turn is rendered as `AI: ` followed by
its content truncated to its first 500 characters with an ellipsis marker
appended when the source exceeds 500 characters (a turn of at most 500
characters is included unmodified); the context text is empty when no prior
turns exist. -/
theorem context_window_amended (messages : List TurnRec)
    (h : ∀ m ∈ messages.dropLast, m.role = "user" ∨ m.role = "assistant") :
    buildContextStr messages
        = String.intercalate "\n" ((contextSlice messages).map renderSpec) ∧
    (contextSlice messages).length = min messages.dropLast.length 10 ∧
    (messages.dropLast = [] → buildContextStr messages = "") ∧
    (∀ c, truncateAssistant c = if c.length > 500 then takeChars c 500 ++ "..." else c) := by
  have hslice : ∀ m ∈ contextSlice messages, m.role = "user" ∨ m.role = "assistant" := by
    intro m hm
    exact h m (List.mem_of_mem_drop hm)
  have hcm : contextMessages messages = (contextSlice messages).map renderSpec :=
    filterMap_renderTurn_eq_map _ hslice
  refine ⟨?_, ?_, ?_, ?_⟩
  · rw [buildContextStr, hcm]
    by_cases he : ((contextSlice messages).map renderSpec).isEmpty = true
    · rw [List.isEmpty_iff] at he
      rw [he]
      rfl
    · simp only [Bool.not_eq_true] at he
      simp [he]
  · rw [contextSlice, List.length_drop]
    omega
  · intro hnil
    rw [buildContextStr, hcm, contextSlice, hnil]
    rfl
  · intro c
    rw [truncateAssistant]
    by_cases hc : c.length > 500
    · simp [hc]
    · simp only [hc, if_false]
      cases c with
      | mk data =>
        simp only [takeChars]
        rw [List.take_of_length_le]
        simpa [String.length] using hc

/-- Twelve messages: eleven prior user turns followed by the just-submitted
user turn — the concrete session of the C3 witness. -/
def elevenPriorTurns : List TurnRec :=
  List.replicate 11 ⟨"user", "m", "t", []⟩ ++ [⟨"user", "now", "t", []⟩]

/-- Witness for C3 (amended): with 11 prior turns the context keeps the 10
most recent and renders them joined by newlines. -/
theorem context_window_amended_witness :
    (contextSlice elevenPriorTurns).length = min elevenPriorTurns.dropLast.length 10 ∧
    buildContextStr elevenPriorTurns
      = String.intercalate "\n" ((contextSlice elevenPriorTurns).map renderSpec) :=
  ⟨(context_window_amended elevenPriorTurns (by decide)).2.1,
   (context_window_amended elevenPriorTurns (by decide)).1⟩

/-! ## C5 — approval gate -/

/-- C5: for every approval request received from the runtime, the gate
resolves to approve; when the turn was configured with auto-accept the only
event emitted is `tool_approved{auto:true}` and no `approval_request` event
is emitted; otherwise an `approval_request` event is emitted and the
request is still resolved to approve unconditionally, without waiting for
client input. -/
theorem approval_gate_behavior (autoAccept : Bool) :
    (approvalOut autoAccept).2 = Resolution.approve ∧
    (autoAccept = true →
        (approvalOut autoAccept).1 = [ClientEvent.toolApproved true] ∧
        ∀ m, ClientEvent.approvalRequestEvt m ∉ (approvalOut autoAccept).1) ∧
    (autoAccept = false →
        (approvalOut autoAccept).1 = [ClientEvent.approvalRequestEvt "需要您的批准才能继续"]) := by
  refine ⟨?_, ?_, ?_⟩
  · cases autoAccept <;> rfl
  · intro h
    subst h
    refine ⟨rfl, ?_⟩
    intro m hm
    simp [approvalOut] at hm
  · intro h
    subst h
    rfl

/-- Witness for C5 at both gate configurations. -/
theorem approval_gate_behavior_witness :
    (approvalOut true).1 = [ClientEvent.toolApproved true] ∧
    (approvalOut false).1 = [ClientEvent.approvalRequestEvt "需要您的批准才能继续"] ∧
    (approvalOut false).2 = Resolution.approve :=
  ⟨((approval_gate_behavior true).2.1 rfl).1,
   (approval_gate_behavior false).2.2 rfl,
   (approval_gate_behavior false).1⟩

/-! ## C9 — empty fragments are dropped -/

/-- C9: a runtime text fragment with empty text emits no `stream` event and
leaves the accumulated response buffer unchanged, while a non-empty
fragment is appended to the buffer and forwarded as exactly one `stream`
event carrying that fragment. -/
theorem empty_fragment_not_forwarded (cfg : TurnConfig) (st : TurnState) (t : String)
    (h : t ≠ "") :
    (eventOut cfg (RuntimeEvent.textPart "")).1 = [] ∧
    eventDelta cfg st (RuntimeEvent.textPart "") = st ∧
    (eventOut cfg (RuntimeEvent.textPart t)).1
        = [ClientEvent.streamChunk t cfg.session_id] ∧
    (eventDelta cfg st (RuntimeEvent.textPart t)).full_response
        = st.full_response ++ t := by
  have he : t.isEmpty = false := by
    cases hb : t.isEmpty
    · rfl
    · exact absurd ((String.isEmpty_iff t).mp hb) h
  refine ⟨rfl, rfl, ?_, ?_⟩
  · simp [eventOut, textPartOut, he]
  · simp [eventDelta, he]

/-- Witness for C9 at the fragment `"hi"`. -/
theorem empty_fragment_not_forwarded_witness :
    (eventOut ⟨"s", false, jsonLoadsEx⟩ (RuntimeEvent.textPart "")).1 = [] ∧
    (eventOut ⟨"s", false, jsonLoadsEx⟩ (RuntimeEvent.textPart "hi")).1
        = [ClientEvent.streamChunk "hi" "s"] :=
  ⟨(empty_fragment_not_forwarded ⟨"s", false, jsonLoadsEx⟩ ⟨"", []⟩ "hi" (by decide)).1,
   (empty_fragment_not_forwarded ⟨"s", false, jsonLoadsEx⟩ ⟨"", []⟩ "hi" (by decide)).2.2.1⟩

/-! ## Stream-machine helper lemmas -/

theorem streamContents_append (a b : List ClientEvent) :
    streamContents (a ++ b) = streamContents a ++ streamContents b :=
  List.filterMap_append a b _

theorem completePayloads_append (a b : List ClientEvent) :
    completePayloads (a ++ b) = completePayloads a ++ completePayloads b :=
  List.filterMap_append a b _

theorem completePayloads_eq_nil (l : List ClientEvent)
    (h : ∀ c ∈ l, c.isTerminal = false) : completePayloads l = [] := by
  induction l with
  | nil => rfl
  | cons c t ih =>
    have hc := h c (List.mem_cons_self c t)
    have ht := ih (fun x hx => h x (List.mem_cons_of_mem c hx))
    cases c
    case complete => simp [ClientEvent.isTerminal] at hc
    case errorEvt => simp [ClientEvent.isTerminal] at hc
    all_goals simpa [completePayloads, List.filterMap_cons] using ht

theorem toolCallOut_no_terminal (parse : String → Option JsonVal) (sid : String)
    (f : Option ToolFuncDict) :
    ∀ c ∈ (toolCallOut parse sid f).2.1, c.isTerminal = false := by
  intro c hc
  revert hc
  simp only [toolCallOut]
  split
  · split
    · intro hc
      rcases List.mem_append.mp hc with h1 | h2
      · rw [List.mem_singleton.mp h1]; rfl
      · rw [List.mem_singleton.mp h2]; rfl
    · intro hc
      rw [List.mem_singleton.mp hc]; rfl
    · intro hc
      rw [List.mem_singleton.mp hc]; rfl
  · intro hc
    rw [List.mem_singleton.mp hc]; rfl

theorem eventOut_no_terminal (cfg : TurnConfig) (e : RuntimeEvent) :
    ∀ c ∈ (eventOut cfg e).1, c.isTerminal = false := by
  intro c hc
  cases e with
  | textPart t =>
    simp only [eventOut, textPartOut] at hc
    by_cases ht : t.isEmpty = true
    · simp [ht] at hc
    · simp only [Bool.not_eq_true] at ht
      simp only [ht, Bool.false_eq_true, if_false] at hc
      rw [List.mem_singleton.mp hc]; rfl
  | toolCall f => exact toolCallOut_no_terminal cfg.parse cfg.session_id f c hc
  | approvalRequest =>
    simp only [eventOut, approvalOut] at hc
    by_cases ha : cfg.auto_accept = true
    · simp only [ha, if_true] at hc
      rw [List.mem_singleton.mp hc]; rfl
    · simp only [Bool.not_eq_true] at ha
      simp only [ha, Bool.false_eq_true, if_false] at hc
      rw [List.mem_singleton.mp hc]; rfl
  | other => simp [eventOut] at hc

theorem runEvents_no_terminal (cfg : TurnConfig) :
    ∀ (es : List RuntimeEvent) (st : TurnState),
      ∀ c ∈ (runEvents cfg st es).2.1, c.isTerminal = false := by
  intro es
  induction es with
  | nil => intro st c hc; simp [runEvents] at hc
  | cons e t ih =>
    intro st c hc
    cases he : (eventOut cfg e).2 with
    | some msg =>
      simp only [runEvents, he] at hc
      exact eventOut_no_terminal cfg e c hc
    | none =>
      simp only [runEvents, he] at hc
      rcases List.mem_append.mp hc with h1 | h2
      · exact eventOut_no_terminal cfg e c h1
      · exact ih (eventDelta cfg st e) c h2

theorem eventDelta_full_response (cfg : TurnConfig) (st : TurnState) (e : RuntimeEvent) :
    (eventDelta cfg st e).full_response
      = st.full_response ++ concatAll (streamContents (eventOut cfg e).1) := by
  cases e with
  | textPart t =>
    by_cases ht : t.isEmpty = true
    · simp [eventDelta, eventOut, textPartOut, ht, streamContents, concatAll]
    · simp only [Bool.not_eq_true] at ht
      simp [eventDelta, eventOut, textPartOut, ht, streamContents, concatAll_cons,
        concatAll_nil, String.append_empty]
  | toolCall f =>
    have hsc : streamContents (eventOut cfg (RuntimeEvent.toolCall f)).1 = [] := by
      simp only [eventOut, toolCallOut]
      split
      · split <;> rfl
      · rfl
    simp [eventDelta, hsc, concatAll_nil, String.append_empty]
  | approvalRequest =>
    have hsc : streamContents (eventOut cfg RuntimeEvent.approvalRequest).1 = [] := by
      simp only [eventOut, approvalOut]
      split <;> rfl
    simp [eventDelta, hsc, concatAll_nil, String.append_empty]
  | other =>
    simp [eventDelta, eventOut, streamContents, concatAll_nil, String.append_empty]

theorem runEvents_full_response (cfg : TurnConfig) :
    ∀ (es : List RuntimeEvent) (st : TurnState),
      (runEvents cfg st es).2.2 = none →
      (runEvents cfg st es).1.full_response
        = st.full_response ++ concatAll (streamContents (runEvents cfg st es).2.1) := by
  intro es
  induction es with
  | nil =>
    intro st _
    simp [runEvents, streamContents, concatAll_nil, String.append_empty]
  | cons e t ih =>
    intro st h
    cases he : (eventOut cfg e).2 with
    | some msg => simp [runEvents, he] at h
    | none =>
      simp only [runEvents, he] at h ⊢
      rw [ih (eventDelta cfg st e) h, eventDelta_full_response,
        streamContents_append, concatAll_append, String.append_assoc]

theorem runEvents_take (cfg : TurnConfig) :
    ∀ (es : List RuntimeEvent) (st : TurnState),
      ∃ k, k ≤ es.length ∧
        (runEvents cfg st es).2.1
          = (es.take k).flatMap (fun e => (eventOut cfg e).1) := by
  intro es
  induction es with
  | nil =>
    intro st
    exact ⟨0, Nat.le_refl 0, by simp [runEvents]⟩
  | cons e t ih =>
    intro st
    cases he : (eventOut cfg e).2 with
    | some msg =>
      refine ⟨1, by simp, ?_⟩
      simp [runEvents, he, List.flatMap_cons]
    | none =>
      obtain ⟨k, hk, hevs⟩ := ih (eventDelta cfg st e)
      refine ⟨k + 1, by simpa using Nat.succ_le_succ hk, ?_⟩
      simp only [runEvents, he, List.take_succ_cons, List.flatMap_cons]
      rw [hevs]

/-! ## C2 — exactly one terminal event per turn -/

/-- C2: every chat turn emits exactly one terminal event — `complete` or
`error` — as its last event; every `stream`/`tool_call`/approval event of
the turn is emitted strictly between turn start and that terminal event,
and those intermediate events are exactly the per-event outputs of a prefix
of the runtime's event stream, concatenated in the order the runtime
produced the underlying signals. -/
theorem chat_exactly_one_terminal_event (cfg : TurnConfig) (sessionNew : Bool)
    (events : List RuntimeEvent) (streamFail : Option String) :
    ∃ k t, k ≤ events.length ∧ ClientEvent.isTerminal t = true ∧
      (handleChat cfg sessionNew events streamFail).1
        = initEvents cfg sessionNew
            ++ ((events.take k).flatMap (fun e => (eventOut cfg e).1)) ++ [t] ∧
      ∀ c ∈ initEvents cfg sessionNew
            ++ ((events.take k).flatMap (fun e => (eventOut cfg e).1)),
        ClientEvent.isTerminal c = false := by
  obtain ⟨k, hk, hevs⟩ := runEvents_take cfg events ⟨"", []⟩
  have hmid : ∀ c ∈ initEvents cfg sessionNew
      ++ ((events.take k).flatMap (fun e => (eventOut cfg e).1)),
      ClientEvent.isTerminal c = false := by
    intro c hc
    rcases List.mem_append.mp hc with h | h
    · cases sessionNew with
      | true =>
        simp only [initEvents, if_true] at h
        rcases List.mem_cons.mp h with rfl | h2
        · rfl
        · rcases List.mem_cons.mp h2 with rfl | h3
          · rfl
          · exact absurd h3 (List.not_mem_nil c)
      | false =>
        simp only [initEvents, Bool.false_eq_true, if_false, List.nil_append] at h
        rw [List.mem_singleton.mp h]; rfl
    · obtain ⟨e, _, hce⟩ := List.mem_flatMap.mp h
      exact eventOut_no_terminal cfg e c hce
  rcases hrun : runEvents cfg ⟨"", []⟩ events with ⟨st, evs, err⟩
  rw [hrun] at hevs
  have hevs' : evs = (events.take k).flatMap (fun e => (eventOut cfg e).1) := hevs
  cases err with
  | some msg =>
    refine ⟨k, ClientEvent.errorEvt msg, hk, rfl, ?_, hmid⟩
    simp only [handleChat, hrun]
    rw [hevs']
  | none =>
    cases streamFail with
    | some msg =>
      refine ⟨k, ClientEvent.errorEvt msg, hk, rfl, ?_, hmid⟩
      simp only [handleChat, hrun]
      rw [hevs']
    | none =>
      refine ⟨k, ClientEvent.complete st.full_response cfg.session_id st.tools_used,
        hk, rfl, ?_, hmid⟩
      simp only [handleChat, hrun]
      rw [hevs']

/-! ## C1 — the complete event carries the stream concatenation -/

/-- C1: when the runtime stream is consumed to exhaustion without an
exception, the turn emits exactly one `complete` event, whose `content`
equals the concatenation, in receipt order, of the `content` fields of all
`stream` events emitted during the turn, and the same accumulated text
(with the turn's tool invocations) is persisted as the assistant turn. -/
theorem chat_complete_event_concatenates_stream (cfg : TurnConfig) (sessionNew : Bool)
    (events : List RuntimeEvent)
    (h : (runEvents cfg ⟨"", []⟩ events).2.2 = none) :
    completePayloads (handleChat cfg sessionNew events none).1
      = [(concatAll (streamContents (handleChat cfg sessionNew events none).1),
          cfg.session_id,
          (runEvents cfg ⟨"", []⟩ events).1.tools_used)] ∧
    (handleChat cfg sessionNew events none).2
      = some (concatAll (streamContents (handleChat cfg sessionNew events none).1),
              (runEvents cfg ⟨"", []⟩ events).1.tools_used) := by
  have hterm := runEvents_no_terminal cfg events ⟨"", []⟩
  have hfr := runEvents_full_response cfg events ⟨"", []⟩ h
  rcases hrun : runEvents cfg ⟨"", []⟩ events with ⟨st, evs, err⟩
  rw [hrun] at h hterm hfr
  have herr : err = none := h
  subst herr
  have hout : (handleChat cfg sessionNew events none).1
      = initEvents cfg sessionNew
          ++ evs ++ [ClientEvent.complete st.full_response cfg.session_id st.tools_used] := by
    simp only [handleChat, hrun]
  have hpers : (handleChat cfg sessionNew events none).2
      = some (st.full_response, st.tools_used) := by
    simp only [handleChat, hrun]
  have hscInit : streamContents (initEvents cfg sessionNew) = [] := by
    cases sessionNew <;> rfl
  have hcpInit : completePayloads (initEvents cfg sessionNew) = [] := by
    cases sessionNew <;> rfl
  have hsc : streamContents (handleChat cfg sessionNew events none).1 = streamContents evs := by
    rw [hout, streamContents_append, streamContents_append, hscInit]
    show [] ++ (streamContents evs ++ streamContents [ClientEvent.complete _ _ _])
        = streamContents evs
    simp [streamContents]
  have hfull : st.full_response = concatAll (streamContents evs) := by
    simpa using hfr
  refine ⟨?_, ?_⟩
  · rw [hout, completePayloads_append, completePayloads_append, hcpInit,
      completePayloads_eq_nil evs hterm]
    rw [hout] at hsc
    rw [hsc, ← hfull]
    rfl
  · rw [hpers, hsc, ← hfull]
/-- The turn configuration of the concrete runs below: session id `s`,
manual approval, `json.loads` as modelled by `jsonLoadsEx`. -/
def witnessCfg : TurnConfig := ⟨"s", true, jsonLoadsEx⟩

/-- Concrete runtime stream of the C1 witness: two non-empty fragments, an
empty fragment, and an auto-approved approval request. -/
def witnessEvents : List RuntimeEvent :=
  [RuntimeEvent.textPart "he", RuntimeEvent.textPart "",
   RuntimeEvent.approvalRequest, RuntimeEvent.textPart "llo"]

/-- Witness for C1 at a concrete exhausted stream. -/
theorem chat_complete_event_concatenates_stream_witness :
    completePayloads (handleChat witnessCfg true witnessEvents none).1
      = [(concatAll (streamContents (handleChat witnessCfg true witnessEvents none).1),
          witnessCfg.session_id,
          (runEvents witnessCfg ⟨"", []⟩ witnessEvents).1.tools_used)] ∧
    (handleChat witnessCfg true witnessEvents none).2
      = some (concatAll (streamContents (handleChat witnessCfg true witnessEvents none).1),
              (runEvents witnessCfg ⟨"", []⟩ witnessEvents).1.tools_used) :=
  chat_complete_event_concatenates_stream witnessCfg true witnessEvents rfl

/-! ## C6 — tool-call extraction -/

theorem toolCallOut_inv (parse : String → Option JsonVal) (sid : String)
    (f : Option ToolFuncDict) :
    (toolCallOut parse sid f).1 = ⟨extractToolName f, extractToolArgs parse f⟩ := by
  simp only [toolCallOut]
  split
  · split <;> rfl
  · rfl

theorem toolCallOut_head (parse : String → Option JsonVal) (sid : String)
    (f : Option ToolFuncDict) :
    ((toolCallOut parse sid f).2.1).head?
      = some (ClientEvent.toolCallEvt (extractToolName f) (extractToolArgs parse f) sid) := by
  simp only [toolCallOut]
  split
  · split <;> rfl
  · rfl

theorem toolCallOut_error_char (parse : String → Option JsonVal) (sid : String)
    (f : Option ToolFuncDict)
    (h : (toolCallOut parse sid f).2.2 ≠ none) :
    isFileModifying (extractToolName f) = true ∧
    ∀ fields, extractToolArgs parse f ≠ JsonVal.obj fields := by
  by_cases hif : isFileModifying (extractToolName f) = true
  · refine ⟨hif, ?_⟩
    intro fields hcontra
    apply h
    simp only [toolCallOut, hif, if_true]
    rw [hcontra]
    simp only [extractFilePathStep]
    split
    · rfl
    · rfl
    · rename_i heq
      simp at heq
  · exact absurd (by simp only [toolCallOut]; rw [if_neg hif]) h

/-- The runtime tool-call event of the C6 counterexample: tool name
`write_file` with argument text `[1]`, which is valid JSON but not an
object. -/
def cexToolCall : RuntimeEvent :=
  RuntimeEvent.toolCall (some ⟨some (JsonVal.str "write_file"), some (JsonVal.str "[1]")⟩)

/-- Claim C6 as stated is false on the code: a tool-call event whose
argument text is valid JSON but not a JSON object, arriving with a tool
name in the file-modifying set, aborts the turn.  At the concrete input
(name `write_file`, arguments `[1]`), line 681 of main.py calls
`tool_args.get(...)` on a list, raising `AttributeError`, which the outer
handler converts into a terminal `error` event — the turn is aborted and no
assistant turn is persisted, though the invocation was appended and the
`tool_call` event emitted first. -/
theorem tool_call_nonobject_args_abort_counterexample :
    handleChat ⟨"s", false, jsonLoadsEx⟩ false [cexToolCall] none
      = ([ClientEvent.thinking "正在思考...",
          ClientEvent.toolCallEvt (JsonVal.str "write_file") (JsonVal.arr [JsonVal.num 1]) "s",
          ClientEvent.errorEvt attributeErrorMsg], none) := rfl

/-- C6 (amended): for every runtime tool-call event, a tool name and
argument value are extracted: a missing function payload or a missing
`name` key degrades to the sentinel string `unknown`, and argument text
that is not valid JSON degrades to a raw-string fallback mapping containing
the original text; the resulting invocation is appended to the turn's
tool-invocation list and a `tool_call` event is emitted first; the
extraction itself never aborts the turn — an abort can arise only
afterwards, exactly when the extracted tool name is in the file-modifying
set while the extracted arguments are not a JSON object. -/
theorem tool_call_extraction_amended (cfg : TurnConfig) (f : Option ToolFuncDict)
    (st : TurnState) :
    (toolCallOut cfg.parse cfg.session_id f).1
        = ⟨extractToolName f, extractToolArgs cfg.parse f⟩ ∧
    ((toolCallOut cfg.parse cfg.session_id f).2.1).head?
        = some (ClientEvent.toolCallEvt (extractToolName f)
            (extractToolArgs cfg.parse f) cfg.session_id) ∧
    (f = none → extractToolName f = JsonVal.str "unknown"
        ∧ extractToolArgs cfg.parse f = JsonVal.obj []) ∧
    (∀ fd, f = some fd → fd.name = none → extractToolName f = JsonVal.str "unknown") ∧
    (∀ fd s, f = some fd → fd.arguments = some (JsonVal.str s) → cfg.parse s = none →
        extractToolArgs cfg.parse f = JsonVal.obj [("raw", JsonVal.str s)]) ∧
    (eventDelta cfg st (RuntimeEvent.toolCall f)).tools_used
        = st.tools_used ++ [⟨extractToolName f, extractToolArgs cfg.parse f⟩] ∧
    ((toolCallOut cfg.parse cfg.session_id f).2.2 ≠ none →
        isFileModifying (extractToolName f) = true ∧
        ∀ fields, extractToolArgs cfg.parse f ≠ JsonVal.obj fields) := by
  refine ⟨toolCallOut_inv _ _ _, toolCallOut_head _ _ _, ?_, ?_, ?_, rfl,
    toolCallOut_error_char _ _ _⟩
  · intro hf
    subst hf
    exact ⟨rfl, rfl⟩
  · intro fd hf hn
    subst hf
    simp [extractToolName, hn]
  · intro fd s hf ha hp
    subst hf
    simp [extractToolArgs, ha, hp]

/-- Witness for C6 (amended): a missing function payload degrades to the
`unknown` sentinel, and non-JSON argument text degrades to the raw-string
fallback. -/
theorem tool_call_extraction_amended_witness :
    extractToolName none = JsonVal.str "unknown" ∧
    extractToolArgs jsonLoadsEx (some ⟨some (JsonVal.str "run"), some (JsonVal.str "oops")⟩)
        = JsonVal.obj [("raw", JsonVal.str "oops")] :=
  ⟨((tool_call_extraction_amended ⟨"s", false, jsonLoadsEx⟩ none ⟨"", []⟩).2.2.1 rfl).1,
   (tool_call_extraction_amended ⟨"s", false, jsonLoadsEx⟩
      (some ⟨some (JsonVal.str "run"), some (JsonVal.str "oops")⟩) ⟨"", []⟩).2.2.2.2.1
      ⟨some (JsonVal.str "run"), some (JsonVal.str "oops")⟩ "oops" rfl rfl rfl⟩

end Helix
